import Mathlib

/-!
cassowary: request dispatch, per-request timing and sample selection.

A shallow embedding of `load.go` (functions `runLoadTest` and `coordinate`).

* Go's `time.Time` and `time.Duration` come from the standard library. A `Time` is modelled by
  its wall-clock instant (nanoseconds after the zero time, January 1 of year 1) and the optional
  monotonic clock reading that `time.Now()` attaches. `Time.Sub` follows the library: the
  monotonic readings are subtracted when both are present, the wall instants otherwise, and the
  result saturates at the limits of a signed 64-bit nanosecond count.
* Every field of `durationMetrics` is `float64(d / time.Millisecond)` for a `Duration` `d`, that
  is a whole number of magnitude at most 9223372036854, below `2 ^ 53`; such a value is
  represented exactly by a `float64` and compares like the integer it holds (see
  `ms_exact_in_float64`). The fields are therefore integers here.
* The work queue is unbuffered and the results channel is buffered: a send on the queue
  completes only when a worker receives it, a send on the results channel only while the buffer
  has room. `coordinate.dispatch` gives the operations of `coordinate` on the queue in program
  order; `coordinate.step` is the step function of `coordinate` running with its workers, in
  which those operations and the sends of the workers complete or stay blocked; `runLoadTest`
  is one worker, given the tokens the queue delivers to it and the room its sends find.
* The progress bar and the printing of the summary are presentation and are left out.
-/

namespace Cassowary

/-! Standard-library time -/

/-- Largest `time.Duration`, `2 ^ 63 - 1` nanoseconds. -/
def maxDuration : Int := 9223372036854775807

/-- Smallest `time.Duration`, `-2 ^ 63` nanoseconds. -/
def minDuration : Int := -9223372036854775808

/-- The constant `time.Millisecond`, in nanoseconds. -/
def Millisecond : Int := 1000000

/-- A `time.Time`: wall instant in nanoseconds after the zero time, and the monotonic reading
(nanoseconds) carried by values that `time.Now()` returned. -/
structure Time where
  wall : Int
  mono : Option Int
  deriving DecidableEq, Repr

/-- The zero value of `time.Time`, which every `var t time.Time` starts with. -/
def Time.zero : Time := ⟨0, none⟩

/-- The method `Time.IsZero`: the wall instant is the zero time. -/
def Time.IsZero (t : Time) : Bool := t.wall == 0

/-- Clamp an exact nanosecond difference to the range of `time.Duration`. -/
def saturate (d : Int) : Int :=
  if d < minDuration then minDuration
  else if maxDuration < d then maxDuration
  else d

/-- The method `Time.Sub`: `t - u` as a `Duration`, from the monotonic readings when both
values have one, from the wall instants otherwise; out-of-range results saturate. -/
def Time.Sub (t u : Time) : Int :=
  match t.mono, u.mono with
  | some a, some b => saturate (a - b)
  | _, _ => saturate (t.wall - u.wall)

/-- The expression `float64(d / time.Millisecond)`: integer division truncating toward zero. -/
def ms (d : Int) : Int := Int.tdiv d Millisecond

/-- A value that `time.Now()` can return at monotonic instant `m`: a wall instant other than the
zero time and a monotonic reading that is a non-negative signed 64-bit count (below `2 ^ 63`). -/
def Time.readAt (t : Time) (m : Int) : Prop :=
  t.wall ≠ 0 ∧ t.mono = some m ∧ 0 ≤ m ∧ m ≤ 9223372036854775807

instance (t : Time) (m : Int) : Decidable (t.readAt m) :=
  inferInstanceAs
    (Decidable (t.wall ≠ 0 ∧ t.mono = some m ∧ 0 ≤ m ∧ m ≤ 9223372036854775807))

/-! Data model -/

/-- The struct `durationMetrics` (load.go, lines 20-27). -/
structure durationMetrics where
  DNSLookup : Int
  TCPConn : Int
  TLSHandshake : Int
  ServerProcessing : Int
  ContentTransfer : Int
  StatusCode : Int
  deriving DecidableEq, Repr

/-- The six slices `coordinate` declares at lines 98-103; `nil` is the empty list. -/
structure Samples where
  dnsDur : List Int
  tcpDur : List Int
  tlsDur : List Int
  serverDur : List Int
  transferDur : List Int
  statusCodes : List Int
  deriving DecidableEq, Repr

/-- All six slices `nil`, as declared. -/
def Samples.empty : Samples := ⟨[], [], [], [], [], []⟩

/-! The aggregator loop of `coordinate` (lines 168-182) -/

namespace coordinate

/-- Lines 169-171: `if item.DNSLookup != 0 { dnsDur = append(dnsDur, item.DNSLookup) }`. -/
def addDNS (acc : Samples) (item : durationMetrics) : Samples :=
  if item.DNSLookup != 0 then { acc with dnsDur := acc.dnsDur ++ [item.DNSLookup] } else acc

/-- Lines 172-174: `if item.TCPConn < 1000 { tcpDur = append(tcpDur, item.TCPConn) }`. -/
def addTCP (acc : Samples) (item : durationMetrics) : Samples :=
  if item.TCPConn < 1000 then { acc with tcpDur := acc.tcpDur ++ [item.TCPConn] } else acc

/-- Lines 176-178: `if c.isTLS { tlsDur = append(tlsDur, item.TLSHandshake) }`. -/
def addTLS (isTLS : Bool) (acc : Samples) (item : durationMetrics) : Samples :=
  if isTLS then { acc with tlsDur := acc.tlsDur ++ [item.TLSHandshake] } else acc

/-- Lines 179-181: the three unconditional appends. -/
def addRest (acc : Samples) (item : durationMetrics) : Samples :=
  { acc with
    serverDur := acc.serverDur ++ [item.ServerProcessing]
    transferDur := acc.transferDur ++ [item.ContentTransfer]
    statusCodes := acc.statusCodes ++ [item.StatusCode] }

/-- One iteration of `for item := range channel` (lines 168-182). -/
def drainItem (isTLS : Bool) (acc : Samples) (item : durationMetrics) : Samples :=
  addRest (addTLS isTLS (addTCP (addDNS acc item) item) item) item

/-- The loop `for item := range channel` over the records in the closed results channel, in the
order they are received, starting from the six `nil` slices. -/
def drain (isTLS : Bool) (channel : List durationMetrics) : Samples :=
  channel.foldl (drainItem isTLS) Samples.empty

end coordinate

/-! The TLS block of the summary (lines 194-203) -/

/-- The three variables `tlsMean`, `tlsMedian`, `tls95` of lines 195-197. -/
structure TLSSummary (F : Type) where
  tlsMean : F
  tlsMedian : F
  tls95 : String

namespace coordinate

/-- Lines 194-203. The three variables start at their zero values (`0`, `0`, `""`) and are
assigned only under `if c.isTLS`. The helpers `calcMean`, `calcMedian` and `calc95Percentile`
live in another file of the package and are parameters here; `F` stands for `float64`. -/
def tlsSummary {F : Type} [Zero F] (calcMean calcMedian : List Int → F)
    (calc95Percentile : List Int → String) (isTLS : Bool) (tlsDur : List Int) : TLSSummary F :=
  let declared : TLSSummary F := ⟨0, 0, ""⟩
  if isTLS then
    { declared with
      tlsMean := calcMean tlsDur
      tlsMedian := calcMedian tlsDur
      tls95 := calc95Percentile tlsDur }
  else declared

end coordinate

/-! The worker `runLoadTest` (lines 29-95) -/

/-- The fields of the struct `cassowary` that `runLoadTest` and `coordinate` use. -/
structure cassowary where
  fileMode : Bool
  isTLS : Bool
  inputFile : String
  baseURL : String
  requests : Int
  concurrencyLevel : Int
  deriving DecidableEq, Repr

/-- Ways in which the process or `coordinate` stops early. -/
inductive Failure where
  /-- A `panic(err)` or a run-time panic. -/
  | panicked
  /-- The `log.Fatalf` of the `ConnectDone` hook. -/
  | fatal
  /-- The `return err` of `coordinate`. -/
  | returned
  deriving DecidableEq, Repr

deriving instance DecidableEq for Except

/-- The hooks of `httptrace.ClientTrace` that lines 38-58 install. `ConnectDone` carries whether
its `err` argument is non-nil. -/
inductive Hook where
  | DNSStart
  | DNSDone
  | ConnectStart
  | ConnectDone (err : Bool)
  | GotConn
  | GotFirstResponseByte
  | TLSHandshakeStart
  | TLSHandshakeDone
  deriving DecidableEq, Repr

/-- The loop-local variables `t0, t1, t2, t3, t4, t5, t6` of line 36. -/
structure Stamps where
  t0 : Time
  t1 : Time
  t2 : Time
  t3 : Time
  t4 : Time
  t5 : Time
  t6 : Time
  deriving DecidableEq, Repr

/-- Line 36: `var t0, t1, t2, t3, t4, t5, t6 time.Time`, all the zero time. -/
def Stamps.init : Stamps :=
  ⟨Time.zero, Time.zero, Time.zero, Time.zero, Time.zero, Time.zero, Time.zero⟩

/-- The response `c.client.Do` hands back: its status code, and whether draining the body with
`io.Copy` fails. -/
structure Response where
  StatusCode : Int
  bodyErr : Bool
  deriving DecidableEq, Repr

/-- What the environment does for one request: whether `http.NewRequest` fails, the hooks the
client fires during `c.client.Do` (each with the value `time.Now()` returns inside it), whether
`Do` returns an error, the response pointer (`none` is `nil`), and the value of `time.Now()` at
line 75. -/
structure Exchange where
  newRequestErr : Bool
  hooks : List (Hook × Time)
  doErr : Bool
  resp : Option Response
  t7 : Time
  deriving DecidableEq, Repr

/-- How a worker comes to rest. -/
inductive Halt where
  /-- The `range` loop ended: the queue was closed and empty. -/
  | exited
  /-- The send of line 93 never completes: the results channel is full and is not drained. -/
  | blocked
  /-- A panic or `log.Fatalf` ended the process. -/
  | failed (f : Failure)
  deriving DecidableEq, Repr

/-- What a worker did: the number of tokens it received from the queue, the records whose send
on `outPutChan` completed, in order, and how it came to rest. -/
structure WorkerRun where
  pulled : Nat
  sent : List durationMetrics
  halt : Halt
  deriving DecidableEq, Repr

namespace runLoadTest

/-- One call of a hook of lines 39-57, `now` being what `time.Now()` returns in it. -/
def fire (s : Stamps) (h : Hook) (now : Time) : Except Failure Stamps :=
  match h with
  | .DNSStart => .ok { s with t0 := now }
  | .DNSDone => .ok { s with t1 := now }
  | .ConnectStart => .ok (if s.t1.IsZero then { s with t1 := now } else s)
  | .ConnectDone err => if err then .error .fatal else .ok { s with t2 := now }
  | .GotConn => .ok { s with t3 := now }
  | .GotFirstResponseByte => .ok { s with t4 := now }
  | .TLSHandshakeStart => .ok { s with t5 := now }
  | .TLSHandshakeDone => .ok { s with t6 := now }

/-- The hooks fired during one `c.client.Do`, in order; a fatal hook ends the process. -/
def trace (s : Stamps) : List (Hook × Time) → Except Failure Stamps
  | [] => .ok s
  | (h, now) :: rest =>
    match fire s h now with
    | .error e => .error e
    | .ok s1 => trace s1 rest

/-- Lines 76-91: the substitution for a skipped DNS lookup and the record `out`. -/
def metrics (isTLS : Bool) (s : Stamps) (t7 : Time) (StatusCode : Int) : durationMetrics :=
  let t0 := if s.t0.IsZero then s.t1 else s.t0
  let out : durationMetrics :=
    { DNSLookup := ms (s.t1.Sub t0)
      TCPConn := ms (s.t3.Sub s.t1)
      TLSHandshake := 0
      ServerProcessing := ms (s.t4.Sub s.t3)
      ContentTransfer := ms (t7.Sub s.t4)
      StatusCode := StatusCode }
  if isTLS then { out with TLSHandshake := ms (s.t6.Sub s.t5) } else out

/-- The body of the `range` loop, lines 32-93, for one token: the record it sends, or the
failure that ends the process. A failed body read (lines 67-69) is only printed. Line 86 reads
`resp.StatusCode` also when `resp` is `nil`, which panics. -/
def request (c : cassowary) (x : Exchange) : Except Failure durationMetrics :=
  if x.newRequestErr then .error .panicked
  else
    match trace Stamps.init x.hooks with
    | .error e => .error e
    | .ok s =>
      if x.doErr then .error .panicked
      else
        match x.resp with
        | none => .error .panicked
        | some resp => .ok (metrics c.isTLS s x.t7 resp.StatusCode)

/-- An exchange on which nothing fails: the request is built, no `ConnectDone` reports an
error, `Do` returns a response and no error. -/
def normal (x : Exchange) : Bool :=
  !x.newRequestErr && !x.doErr && x.resp.isSome &&
    x.hooks.all (fun h => h.1 != Hook.ConnectDone true)

/-- The status code of the response of an exchange (`0` when there is none). -/
def statusOf (x : Exchange) : Int :=
  match x.resp with
  | some resp => resp.StatusCode
  | none => 0

end runLoadTest

/-- The function `runLoadTest`: `for _ = range workerChan`, over the tokens the queue delivers
to this worker for as long as it keeps receiving, each paired with what the environment does
for the request issued for it; the token itself is not used. `room` is the number of sends of
this worker that the results channel still accepts (the channel is not drained while workers
run): with no room left the send of line 93 blocks for good, after the token was received and
the request made. -/
def runLoadTest (c : cassowary) : Nat → List (String × Exchange) → WorkerRun
  | _, [] => ⟨0, [], Halt.exited⟩
  | room, (_, x) :: rest =>
    match runLoadTest.request c x with
    | .error e => ⟨1, [], Halt.failed e⟩
    | .ok out =>
      match room with
      | 0 => ⟨1, [], Halt.blocked⟩
      | room1 + 1 =>
        let later := runLoadTest c room1 rest
        ⟨later.pulled + 1, out :: later.sent, later.halt⟩

/-! The dispatcher part of `coordinate` (lines 105-161) -/

/-- An operation of `coordinate` on the work queue `workerChan`. -/
inductive QueueOp where
  | send (token : String)
  | close
  deriving DecidableEq, Repr

/-- What `coordinate` sets up in lines 105-150 and what lines 152-161 then make it do: the
value of `c.isTLS`, the value of `c.requests`, the capacity of the results channel, the number
of workers started, and its operations on the work queue in program order. Whether and when
each operation completes is decided by `coordinate.step`. -/
structure Dispatch where
  isTLS : Bool
  requests : Int
  resultsCap : Int
  workers : Int
  queue : List QueueOp
  deriving DecidableEq, Repr

namespace coordinate

/-- Lines 153-155: `for _, line := range urlSuffixes { workerChan <- line }`. -/
def pushSuffixes (queue : List QueueOp) (urlSuffixes : List String) : List QueueOp :=
  urlSuffixes.foldl (fun q line => q ++ [QueueOp.send line]) queue

/-- Lines 157-159: `for i := 0; i < c.requests; i++ { workerChan <- "a" }`, by the number of
iterations left. -/
def pushPlaceholders : Nat → List QueueOp → List QueueOp
  | 0, queue => queue
  | k + 1, queue => pushPlaceholders k (queue ++ [QueueOp.send "a"])

/-- Lines 105-161 of `coordinate`, as the set-up and the queue operations in program order. The
helpers `isTLS` and `readFile` live in other files of the package and are parameters; `none` is
a non-nil `err`. `make` at line 139 ends the process on a negative capacity and on one above
`chanLimit`, the largest capacity for which it succeeds in the running environment (on 64-bit
Linux at most `(2 ^ 48 - 96) / 48`). `wg.Add` at line 142 panics on a negative count, and the
process ends when the count is above `workerLimit`, the largest number of workers that can be
started in the running environment (at most `2 ^ 31 - 1`, the largest count of a
`sync.WaitGroup`). The loop of lines 157-159 runs `c.requests` times, not at all when that is
not positive. -/
def dispatch (chanLimit workerLimit : Int) (isTLS : String → Option Bool)
    (readFile : String → Option (List String)) (c : cassowary) : Except Failure Dispatch :=
  match isTLS c.baseURL with
  | none => .error .returned
  | some tls =>
    let suffixes : Option (List String) := if c.fileMode then readFile c.inputFile else some []
    match suffixes with
    | none => .error .panicked
    | some urlSuffixes =>
      let requests : Int := if c.fileMode then (urlSuffixes.length : Int) else c.requests
      if requests < 0 then .error .panicked
      else if chanLimit < requests then .error .panicked
      else if c.concurrencyLevel < 0 then .error .panicked
      else if workerLimit < c.concurrencyLevel then .error .panicked
      else
        let q1 := if c.fileMode then pushSuffixes [] urlSuffixes else []
        let q2 := pushPlaceholders requests.toNat q1
        .ok { isTLS := tls
              requests := requests
              resultsCap := requests
              workers := c.concurrencyLevel
              queue := q2 ++ [QueueOp.close] }

end coordinate

/-! `coordinate` running with its workers (lines 145-162) -/

/-- The state of `coordinate` and of the workers it started, while `coordinate` is between line
152 and line 162. Workers run the same code, so they are counted by where they stand. -/
structure Run where
  /-- The queue operations `coordinate` has not completed yet, in program order. -/
  todo : List QueueOp
  /-- The queue operations `coordinate` has completed, in order. -/
  queue : List QueueOp
  /-- Whether `close(workerChan)` was executed. -/
  closed : Bool
  /-- Workers waiting for a token at line 30. -/
  receiving : Nat
  /-- The records of the workers waiting at the send of line 93. -/
  sending : List durationMetrics
  /-- Workers that left the loop and called `wg.Done()`. -/
  finished : Nat
  /-- The records buffered in the results channel, in the order sent. -/
  channel : List durationMetrics
  /-- The capacity of the results channel. -/
  capacity : Nat
  /-- The number of requests issued so far. -/
  issued : Nat
  /-- Set when a panic or `log.Fatalf` ended the process. -/
  died : Option Failure
  deriving DecidableEq, Repr

/-- The events that move `coordinate` and its workers forward. -/
inductive Action where
  /-- A waiting worker receives the token `coordinate` is sending and makes its request. -/
  | take
  /-- The send of line 93 of the `k`-th worker waiting there completes. -/
  | emit (k : Nat)
  /-- The call `close(workerChan)` of line 161. -/
  | close
  /-- A waiting worker finds the queue closed and empty and leaves its loop. -/
  | leave
  deriving DecidableEq, Repr

namespace coordinate

/-- The struct `c` as the workers see it: lines 109 and 134 have stored the TLS flag and, in
file mode, the overridden request count. -/
def configured (c : cassowary) (d : Dispatch) : cassowary :=
  { c with isTLS := d.isTLS, requests := d.requests }

/-- The state at line 152: the workers of lines 145-150 are started and wait for a token,
nothing was sent. -/
def start (d : Dispatch) : Run :=
  { todo := d.queue, queue := [], closed := false, receiving := d.workers.toNat, sending := [],
    finished := 0, channel := [], capacity := d.resultsCap.toNat, issued := 0, died := none }

/-- One event, or `none` when it cannot happen in state `s`. `world i` is what the environment
does for the `i`-th request issued. A send on the unbuffered queue completes only together with
the receive of a waiting worker, which then runs the loop body up to line 93; when the body
fails the whole process is over. A send on the results channel completes only below capacity.
A worker leaves the `range` loop only once the queue is closed. -/
def step (c : cassowary) (world : Nat → Exchange) (s : Run) : Action → Option Run
  | Action.take =>
    if s.died.isSome then none
    else
      match s.todo, s.receiving with
      | QueueOp.send token :: rest, r + 1 =>
        match runLoadTest.request c (world s.issued) with
        | .error f =>
          some { s with
            todo := rest, queue := s.queue ++ [QueueOp.send token], receiving := r,
            issued := s.issued + 1, died := some f }
        | .ok out =>
          some { s with
            todo := rest, queue := s.queue ++ [QueueOp.send token], receiving := r,
            issued := s.issued + 1, sending := s.sending ++ [out] }
      | _, _ => none
  | Action.emit k =>
    if s.died.isSome then none
    else
      match s.sending[k]? with
      | some out =>
        if s.channel.length < s.capacity then
          some { s with
            channel := s.channel ++ [out], sending := s.sending.eraseIdx k,
            receiving := s.receiving + 1 }
        else none
      | none => none
  | Action.close =>
    if s.died.isSome then none
    else
      match s.todo with
      | QueueOp.close :: rest =>
        some { s with todo := rest, queue := s.queue ++ [QueueOp.close], closed := true }
      | _ => none
  | Action.leave =>
    if s.died.isSome then none
    else
      match s.closed, s.receiving with
      | true, r + 1 => some { s with receiving := r, finished := s.finished + 1 }
      | _, _ => none

/-- A sequence of events from state `s`; `none` when one of them cannot happen. -/
def exec (c : cassowary) (world : Nat → Exchange) (s : Run) : List Action → Option Run
  | [] => some s
  | a :: rest =>
    match step c world s a with
    | none => none
    | some s1 => exec c world s1 rest

/-- No event can happen in state `s`: the process has ended, or `coordinate` and every worker
are finished or blocked for good. (If some `emit k` can happen, so can `emit 0`.) -/
def stuck (c : cassowary) (world : Nat → Exchange) (s : Run) : Bool :=
  (step c world s Action.take).isNone && (step c world s (Action.emit 0)).isNone &&
    (step c world s Action.close).isNone && (step c world s Action.leave).isNone

/-- An event that can happen in state `s`, if there is one. -/
def next (c : cassowary) (world : Nat → Exchange) (s : Run) : Option Action :=
  if (step c world s Action.take).isSome then some Action.take
  else if (step c world s (Action.emit 0)).isSome then some (Action.emit 0)
  else if (step c world s Action.close).isSome then some Action.close
  else if (step c world s Action.leave).isSome then some Action.leave
  else none

/-- A run from state `s` that lets events happen, at most `fuel` of them, until none can. -/
def schedule (c : cassowary) (world : Nat → Exchange) : Nat → Run → List Action
  | 0, _ => []
  | fuel + 1, s =>
    match next c world s with
    | none => []
    | some a =>
      match step c world s a with
      | none => []
      | some s1 => a :: schedule c world fuel s1

/-- The bound on the number of events still possible from state `s`. -/
def budget (s : Run) : Nat := 3 * s.todo.length + 2 * s.sending.length + s.receiving

/-- What holds of every state of a count-mode run with `R` requests and `C` workers in which no
request fails: either `coordinate` has sent `j` placeholders, has `k` more to send before the
close, `j` requests were issued and their records are in the results channel or wait at line
93; or it has sent all `R` placeholders and closed the queue. -/
def CountInv (R C : Nat) (s : Run) : Prop :=
  s.died = none ∧ s.capacity = R ∧ s.receiving + s.sending.length + s.finished = C ∧
  ((∃ j k, j + k = R ∧
      s.todo = List.replicate k (QueueOp.send "a") ++ [QueueOp.close] ∧
      s.queue = List.replicate j (QueueOp.send "a") ∧ s.closed = false ∧ s.finished = 0 ∧
      s.channel.length + s.sending.length = j ∧ s.issued = j) ∨
   (s.todo = [] ∧ s.queue = List.replicate R (QueueOp.send "a") ++ [QueueOp.close] ∧
      s.closed = true ∧ s.channel.length + s.sending.length = R))

end coordinate

/-! Concrete runs used below -/

namespace Sample

/-- A value of `time.Now()`, `m` nanoseconds after the process started; the process starts
63900000000 seconds after the zero time. -/
def clock (m : Int) : Time := ⟨63900000000000000000 + m, some m⟩

/-- An HTTPS target, count mode, two requests, one worker. -/
def https : cassowary :=
  { fileMode := false, isTLS := true, inputFile := "", baseURL := "https://example.test",
    requests := 2, concurrencyLevel := 1 }

/-- An HTTP-only target, count mode, two requests, one worker. -/
def http : cassowary :=
  { fileMode := false, isTLS := false, inputFile := "", baseURL := "http://example.test",
    requests := 2, concurrencyLevel := 1 }

/-- File mode with the suffix file `urls.txt`. -/
def fromFile : cassowary :=
  { fileMode := true, isTLS := false, inputFile := "urls.txt", baseURL := "http://example.test",
    requests := 5, concurrencyLevel := 1 }

/-- The scheme check on a well-formed `http://` URL: no error, not TLS. -/
def plainScheme (_ : String) : Option Bool := some false

/-- The largest channel capacity `make` accepts for 48-byte records on 64-bit Linux,
`(2 ^ 48 - 96) / 48`. -/
def chanLimit : Int := 5864062014803

/-- Count mode with a request count of `2 ^ 62`. -/
def huge : cassowary :=
  { fileMode := false, isTLS := false, inputFile := "", baseURL := "http://example.test",
    requests := 4611686018427387904, concurrencyLevel := 1 }

/-- Count mode with one request and a concurrency level of zero. -/
def noWorker : cassowary :=
  { fileMode := false, isTLS := false, inputFile := "", baseURL := "http://example.test",
    requests := 1, concurrencyLevel := 0 }

/-- What `coordinate` sets up for `noWorker`. -/
def noWorkerDispatch : Dispatch :=
  { isTLS := false, requests := 1, resultsCap := 1, workers := 0,
    queue := [QueueOp.send "a", QueueOp.close] }

/-- What `coordinate` sets up for `http`. -/
def httpDispatch : Dispatch :=
  { isTLS := false, requests := 2, resultsCap := 2, workers := 1,
    queue := [QueueOp.send "a", QueueOp.send "a", QueueOp.close] }

/-- What `coordinate` sets up for `fromFile` when the file holds the single suffix `/x`. -/
def fromFileDispatch : Dispatch :=
  { isTLS := false, requests := 1, resultsCap := 1, workers := 1,
    queue := [QueueOp.send "/x", QueueOp.send "a", QueueOp.close] }

/-- The largest count of a `sync.WaitGroup`, `2 ^ 31 - 1`. -/
def workerLimit : Int := 2147483647

/-- Count mode with one request and a concurrency level of `2 ^ 31`. -/
def crowd : cassowary :=
  { fileMode := false, isTLS := false, inputFile := "", baseURL := "http://example.test",
    requests := 1, concurrencyLevel := 2147483648 }

/-- A scheme check that reports a malformed URL. -/
def badScheme (_ : String) : Option Bool := none

/-- A file reader that yields the single suffix `/x`. -/
def oneSuffix (_ : String) : Option (List String) := some ["/x"]

/-- A request on a new connection: DNS lookup of 2 ms, connect, TLS handshake of 20 ms, first
byte, body read; status 200. -/
def fresh : Exchange :=
  { newRequestErr := false
    hooks :=
      [(Hook.DNSStart, clock 1000000), (Hook.DNSDone, clock 3000000),
       (Hook.ConnectStart, clock 3100000), (Hook.ConnectDone false, clock 9000000),
       (Hook.TLSHandshakeStart, clock 9100000), (Hook.TLSHandshakeDone, clock 29100000),
       (Hook.GotConn, clock 29200000), (Hook.GotFirstResponseByte, clock 80000000)]
    doErr := false
    resp := some ⟨200, false⟩
    t7 := clock 95000000 }

/-- The variables `t0 .. t6` after the hooks of `fresh`. -/
def freshStamps : Stamps :=
  ⟨clock 1000000, clock 3000000, clock 9000000, clock 29200000, clock 80000000,
   clock 9100000, clock 29100000⟩

/-- A request on a new connection whose DNS lookup takes half a millisecond (500000 ns). -/
def quickDNS : Exchange :=
  { newRequestErr := false
    hooks :=
      [(Hook.DNSStart, clock 1000000), (Hook.DNSDone, clock 1500000),
       (Hook.ConnectStart, clock 1600000), (Hook.ConnectDone false, clock 9000000),
       (Hook.GotConn, clock 9100000), (Hook.GotFirstResponseByte, clock 80000000)]
    doErr := false
    resp := some ⟨200, false⟩
    t7 := clock 95000000 }

/-- The variables `t0 .. t6` after the hooks of `quickDNS`. -/
def quickDNSStamps : Stamps :=
  ⟨clock 1000000, clock 1500000, clock 9000000, clock 9100000, clock 80000000,
   Time.zero, Time.zero⟩

/-- A request served on a kept-alive connection: only `GotConn` and `GotFirstResponseByte`
fire; status 404. -/
def reused : Exchange :=
  { newRequestErr := false
    hooks := [(Hook.GotConn, clock 100000000), (Hook.GotFirstResponseByte, clock 150000000)]
    doErr := false
    resp := some ⟨404, false⟩
    t7 := clock 160000000 }

/-- The variables `t0 .. t6` after the hooks of `reused`. -/
def reusedStamps : Stamps :=
  ⟨Time.zero, Time.zero, Time.zero, clock 100000000, clock 150000000, Time.zero, Time.zero⟩

/-- A request for which `c.client.Do` returns an error (the server closes the connection). -/
def broken : Exchange :=
  { newRequestErr := false
    hooks := [(Hook.GotConn, clock 100000000)]
    doErr := true
    resp := none
    t7 := clock 160000000 }

/-- An environment in which the first request is made on a new connection and every later one
on the kept-alive connection. -/
def steady (i : Nat) : Exchange := if i = 0 then fresh else reused

/-- An environment in which every request fails. -/
def failing (_ : Nat) : Exchange := broken

/-- The record of `fresh` on an HTTP-only target. -/
def freshPlain : durationMetrics :=
  { DNSLookup := 2, TCPConn := 26, TLSHandshake := 0, ServerProcessing := 50,
    ContentTransfer := 15, StatusCode := 200 }

/-- The record of `reused` on an HTTP-only target. -/
def reusedPlain : durationMetrics :=
  { DNSLookup := 0, TCPConn := 9223372036854, TLSHandshake := 0, ServerProcessing := 50,
    ContentTransfer := 10, StatusCode := 404 }

/-- The record of `fresh` on an HTTPS target. -/
def freshRecord : durationMetrics :=
  { DNSLookup := 2, TCPConn := 26, TLSHandshake := 20, ServerProcessing := 50,
    ContentTransfer := 15, StatusCode := 200 }

/-- The record of `reused` on an HTTPS target. -/
def reusedRecord : durationMetrics :=
  { DNSLookup := 0, TCPConn := 9223372036854, TLSHandshake := 0, ServerProcessing := 50,
    ContentTransfer := 10, StatusCode := 404 }

end Sample

/-! Facts about the aggregator loop -/

section DrainLemmas

open coordinate

theorem drainItem_dnsDur (isTLS : Bool) (acc : Samples) (r : durationMetrics) :
    (drainItem isTLS acc r).dnsDur
      = if r.DNSLookup != 0 then acc.dnsDur ++ [r.DNSLookup] else acc.dnsDur := by
  unfold drainItem addRest addTLS addTCP addDNS
  by_cases h1 : (r.DNSLookup != 0) = true <;> by_cases h2 : r.TCPConn < 1000 <;>
    cases isTLS <;> simp [h1, h2]

theorem drainItem_tcpDur (isTLS : Bool) (acc : Samples) (r : durationMetrics) :
    (drainItem isTLS acc r).tcpDur
      = if r.TCPConn < 1000 then acc.tcpDur ++ [r.TCPConn] else acc.tcpDur := by
  unfold drainItem addRest addTLS addTCP addDNS
  by_cases h1 : (r.DNSLookup != 0) = true <;> by_cases h2 : r.TCPConn < 1000 <;>
    cases isTLS <;> simp [h1, h2]

theorem drainItem_tlsDur (isTLS : Bool) (acc : Samples) (r : durationMetrics) :
    (drainItem isTLS acc r).tlsDur
      = if isTLS then acc.tlsDur ++ [r.TLSHandshake] else acc.tlsDur := by
  unfold drainItem addRest addTLS addTCP addDNS
  by_cases h1 : (r.DNSLookup != 0) = true <;> by_cases h2 : r.TCPConn < 1000 <;>
    cases isTLS <;> simp [h1, h2]

theorem drainItem_serverDur (isTLS : Bool) (acc : Samples) (r : durationMetrics) :
    (drainItem isTLS acc r).serverDur = acc.serverDur ++ [r.ServerProcessing] := by
  unfold drainItem addRest addTLS addTCP addDNS
  by_cases h1 : (r.DNSLookup != 0) = true <;> by_cases h2 : r.TCPConn < 1000 <;>
    cases isTLS <;> simp [h1, h2]

theorem drainItem_transferDur (isTLS : Bool) (acc : Samples) (r : durationMetrics) :
    (drainItem isTLS acc r).transferDur = acc.transferDur ++ [r.ContentTransfer] := by
  unfold drainItem addRest addTLS addTCP addDNS
  by_cases h1 : (r.DNSLookup != 0) = true <;> by_cases h2 : r.TCPConn < 1000 <;>
    cases isTLS <;> simp [h1, h2]

theorem drainItem_statusCodes (isTLS : Bool) (acc : Samples) (r : durationMetrics) :
    (drainItem isTLS acc r).statusCodes = acc.statusCodes ++ [r.StatusCode] := by
  unfold drainItem addRest addTLS addTCP addDNS
  by_cases h1 : (r.DNSLookup != 0) = true <;> by_cases h2 : r.TCPConn < 1000 <;>
    cases isTLS <;> simp [h1, h2]

theorem fold_dnsDur (isTLS : Bool) (rs : List durationMetrics) (acc : Samples) :
    (rs.foldl (drainItem isTLS) acc).dnsDur
      = acc.dnsDur ++ (rs.filter (fun r => r.DNSLookup != 0)).map (fun r => r.DNSLookup) := by
  induction rs generalizing acc with
  | nil => simp
  | cons r rs ih =>
    rw [List.foldl_cons, ih, drainItem_dnsDur]
    by_cases h : (r.DNSLookup != 0) = true <;> simp [h, List.filter_cons]

theorem fold_tcpDur (isTLS : Bool) (rs : List durationMetrics) (acc : Samples) :
    (rs.foldl (drainItem isTLS) acc).tcpDur
      = acc.tcpDur
        ++ (rs.filter (fun r => decide (r.TCPConn < 1000))).map (fun r => r.TCPConn) := by
  induction rs generalizing acc with
  | nil => simp
  | cons r rs ih =>
    rw [List.foldl_cons, ih, drainItem_tcpDur]
    by_cases h : r.TCPConn < 1000 <;> simp [h, List.filter_cons]

theorem fold_tlsDur (isTLS : Bool) (rs : List durationMetrics) (acc : Samples) :
    (rs.foldl (drainItem isTLS) acc).tlsDur
      = acc.tlsDur ++ (if isTLS then rs.map (fun r => r.TLSHandshake) else []) := by
  induction rs generalizing acc with
  | nil => cases isTLS <;> simp
  | cons r rs ih =>
    rw [List.foldl_cons, ih, drainItem_tlsDur]
    cases isTLS <;> simp

theorem fold_serverDur (isTLS : Bool) (rs : List durationMetrics) (acc : Samples) :
    (rs.foldl (drainItem isTLS) acc).serverDur
      = acc.serverDur ++ rs.map (fun r => r.ServerProcessing) := by
  induction rs generalizing acc with
  | nil => simp
  | cons r rs ih => rw [List.foldl_cons, ih, drainItem_serverDur]; simp

theorem fold_transferDur (isTLS : Bool) (rs : List durationMetrics) (acc : Samples) :
    (rs.foldl (drainItem isTLS) acc).transferDur
      = acc.transferDur ++ rs.map (fun r => r.ContentTransfer) := by
  induction rs generalizing acc with
  | nil => simp
  | cons r rs ih => rw [List.foldl_cons, ih, drainItem_transferDur]; simp

theorem fold_statusCodes (isTLS : Bool) (rs : List durationMetrics) (acc : Samples) :
    (rs.foldl (drainItem isTLS) acc).statusCodes
      = acc.statusCodes ++ rs.map (fun r => r.StatusCode) := by
  induction rs generalizing acc with
  | nil => simp
  | cons r rs ih => rw [List.foldl_cons, ih, drainItem_statusCodes]; simp

end DrainLemmas

/-! Facts about time and about one request -/

section WorkerLemmas

open runLoadTest

theorem saturate_of_inRange (d : Int) (h1 : -9223372036854775808 ≤ d)
    (h2 : d ≤ 9223372036854775807) : saturate d = d := by
  unfold saturate minDuration maxDuration
  rw [if_neg (by omega), if_neg (by omega)]

theorem saturate_bounds (d : Int) :
    -9223372036854775808 ≤ saturate d ∧ saturate d ≤ 9223372036854775807 := by
  unfold saturate minDuration maxDuration
  split
  · omega
  · split <;> omega

theorem sub_of_readAt (t u : Time) (m n : Int) (ht : t.readAt m) (hu : u.readAt n) :
    t.Sub u = m - n := by
  obtain ⟨_, htm, ht0, ht1⟩ := ht
  obtain ⟨_, hum, hu0, hu1⟩ := hu
  unfold Time.Sub
  rw [htm, hum]
  exact saturate_of_inRange _ (by omega) (by omega)

theorem sub_bounds (t u : Time) :
    -9223372036854775808 ≤ t.Sub u ∧ t.Sub u ≤ 9223372036854775807 := by
  unfold Time.Sub
  split <;> exact saturate_bounds _

theorem sub_self (t : Time) : t.Sub t = 0 := by
  unfold Time.Sub
  cases t.mono <;> simp [saturate, minDuration, maxDuration]

theorem sub_zero_eq (t : Time) : t.Sub Time.zero = saturate t.wall := by
  unfold Time.Sub
  cases t.mono <;> simp [Time.zero]

theorem ms_of_nonneg (d : Int) (h : 0 ≤ d) : ms d = d / 1000000 := by
  unfold ms Millisecond
  exact Int.tdiv_eq_ediv h (by decide)

theorem ms_of_neg (d : Int) (h : d < 0) : ms d = -((-d) / 1000000) := by
  unfold ms Millisecond
  have hneg : Int.tdiv d 1000000 = -(Int.tdiv (-d) 1000000) := by
    rw [Int.neg_tdiv]; simp
  rw [hneg, Int.tdiv_eq_ediv (by omega) (by decide)]

/-- Every millisecond count a worker stores lies strictly between `-2 ^ 53` and `2 ^ 53`, so its
conversion to `float64` is exact. -/
theorem ms_exact_in_float64 (t u : Time) :
    -9007199254740992 < ms (t.Sub u) ∧ ms (t.Sub u) < 9007199254740992 := by
  have hb := sub_bounds t u
  rcases le_or_lt 0 (t.Sub u) with h | h
  · rw [ms_of_nonneg _ h]; omega
  · rw [ms_of_neg _ h]; omega

theorem trace_ok_of_no_connect_error (hooks : List (Hook × Time)) (s : Stamps)
    (h : hooks.all (fun h => h.1 != Hook.ConnectDone true) = true) :
    ∃ s2, trace s hooks = .ok s2 := by
  induction hooks generalizing s with
  | nil => exact ⟨s, rfl⟩
  | cons hd rest ih =>
    obtain ⟨hk, now⟩ := hd
    simp only [List.all_cons, Bool.and_eq_true] at h
    obtain ⟨hhd, hrest⟩ := h
    cases hk with
    | ConnectDone err =>
      cases err with
      | true => simp at hhd
      | false => simpa [trace, fire] using ih _ hrest
    | _ => simpa [trace, fire] using ih _ hrest

theorem request_eq_of_trace (c : cassowary) (x : Exchange) (s : Stamps)
    (h : normal x = true) (htr : trace Stamps.init x.hooks = .ok s) :
    request c x = .ok (metrics c.isTLS s x.t7 (statusOf x)) := by
  simp only [normal, Bool.and_eq_true, Bool.not_eq_true'] at h
  obtain ⟨⟨⟨hnew, hdo⟩, hresp⟩, _⟩ := h
  obtain ⟨resp, hr⟩ := Option.isSome_iff_exists.mp hresp
  simp [request, hnew, hdo, htr, hr, statusOf]

theorem request_of_normal (c : cassowary) (x : Exchange) (h : normal x = true) :
    ∃ s, trace Stamps.init x.hooks = .ok s ∧
      request c x = .ok (metrics c.isTLS s x.t7 (statusOf x)) := by
  have hall : x.hooks.all (fun h => h.1 != Hook.ConnectDone true) = true := by
    simp only [normal, Bool.and_eq_true] at h
    exact h.2
  obtain ⟨s, hs⟩ := trace_ok_of_no_connect_error x.hooks Stamps.init hall
  exact ⟨s, hs, request_eq_of_trace c x s h hs⟩

theorem metrics_statusCode (isTLS : Bool) (s : Stamps) (t7 : Time) (code : Int) :
    (metrics isTLS s t7 code).StatusCode = code := by
  cases isTLS <;> rfl

theorem metrics_tls_of_http (s : Stamps) (t7 : Time) (code : Int) :
    (metrics false s t7 code).TLSHandshake = 0 := rfl

theorem metrics_dnsLookup (isTLS : Bool) (s : Stamps) (t7 : Time) (code : Int) :
    (metrics isTLS s t7 code).DNSLookup
      = ms (s.t1.Sub (if s.t0.IsZero then s.t1 else s.t0)) := by
  cases isTLS <;> rfl

theorem metrics_tcpConn (isTLS : Bool) (s : Stamps) (t7 : Time) (code : Int) :
    (metrics isTLS s t7 code).TCPConn = ms (s.t3.Sub s.t1) := by
  cases isTLS <;> rfl

theorem request_ok_inv (c : cassowary) (x : Exchange) (s : Stamps) (r : durationMetrics)
    (hreq : request c x = .ok r) (htr : trace Stamps.init x.hooks = .ok s) :
    ∃ code, r = metrics c.isTLS s x.t7 code := by
  cases hn : x.newRequestErr <;> cases hd : x.doErr <;> cases hr : x.resp <;>
    simp [request, htr, hn, hd, hr] at hreq
  exact ⟨_, hreq.symm⟩

theorem request_tls_of_http (c : cassowary) (x : Exchange) (r : durationMetrics)
    (hc : c.isTLS = false) (hreq : request c x = .ok r) : r.TLSHandshake = 0 := by
  cases htr : trace Stamps.init x.hooks with
  | error e => cases hn : x.newRequestErr <;> simp [request, htr, hn] at hreq
  | ok s =>
    obtain ⟨code, hcode⟩ := request_ok_inv c x s r hreq htr
    rw [hcode, hc]
    rfl

theorem fire_keeps_dns_stamps (s s2 : Stamps) (h : Hook) (now : Time)
    (hno : h ≠ Hook.DNSStart ∧ h ≠ Hook.DNSDone ∧ h ≠ Hook.ConnectStart)
    (hf : fire s h now = .ok s2) : s2.t0 = s.t0 ∧ s2.t1 = s.t1 := by
  obtain ⟨h1, h2, h3⟩ := hno
  cases h with
  | DNSStart => exact absurd rfl h1
  | DNSDone => exact absurd rfl h2
  | ConnectStart => exact absurd rfl h3
  | ConnectDone err =>
    cases err with
    | true => simp [fire] at hf
    | false =>
      simp only [fire] at hf
      injection hf with hf
      subst hf
      exact ⟨rfl, rfl⟩
  | GotConn | GotFirstResponseByte | TLSHandshakeStart | TLSHandshakeDone =>
    simp only [fire] at hf
    injection hf with hf
    subst hf
    exact ⟨rfl, rfl⟩

theorem trace_keeps_dns_stamps (hooks : List (Hook × Time)) (s s2 : Stamps)
    (hno : ∀ h ∈ hooks, h.1 ≠ Hook.DNSStart ∧ h.1 ≠ Hook.DNSDone ∧ h.1 ≠ Hook.ConnectStart)
    (htr : trace s hooks = .ok s2) : s2.t0 = s.t0 ∧ s2.t1 = s.t1 := by
  induction hooks generalizing s with
  | nil =>
    simp only [trace] at htr
    injection htr with htr
    subst htr
    exact ⟨rfl, rfl⟩
  | cons hd rest ih =>
    obtain ⟨hk, now⟩ := hd
    simp only [trace] at htr
    split at htr
    · cases htr
    · rename_i s1 hs1
      have hstep := fire_keeps_dns_stamps s s1 hk now (hno (hk, now) (List.mem_cons_self _ _)) hs1
      have hrest := ih s1 (fun h hh => hno h (List.mem_cons_of_mem _ hh)) htr
      exact ⟨hrest.1.trans hstep.1, hrest.2.trans hstep.2⟩

theorem metrics_tlsHandshake (s : Stamps) (t7 : Time) (code : Int) :
    (metrics true s t7 code).TLSHandshake = ms (s.t6.Sub s.t5) := rfl

theorem fire_keeps_tls_stamps (s s2 : Stamps) (h : Hook) (now : Time)
    (hno : h ≠ Hook.TLSHandshakeStart ∧ h ≠ Hook.TLSHandshakeDone)
    (hf : fire s h now = .ok s2) : s2.t5 = s.t5 ∧ s2.t6 = s.t6 := by
  obtain ⟨h1, h2⟩ := hno
  cases h with
  | TLSHandshakeStart => exact absurd rfl h1
  | TLSHandshakeDone => exact absurd rfl h2
  | ConnectDone err =>
    cases err with
    | true => simp [fire] at hf
    | false =>
      simp only [fire] at hf
      injection hf with hf
      subst hf
      exact ⟨rfl, rfl⟩
  | ConnectStart =>
    simp only [fire] at hf
    injection hf with hf
    subst hf
    split <;> exact ⟨rfl, rfl⟩
  | DNSStart | DNSDone | GotConn | GotFirstResponseByte =>
    simp only [fire] at hf
    injection hf with hf
    subst hf
    exact ⟨rfl, rfl⟩

theorem trace_keeps_tls_stamps (hooks : List (Hook × Time)) (s s2 : Stamps)
    (hno : ∀ h ∈ hooks, h.1 ≠ Hook.TLSHandshakeStart ∧ h.1 ≠ Hook.TLSHandshakeDone)
    (htr : trace s hooks = .ok s2) : s2.t5 = s.t5 ∧ s2.t6 = s.t6 := by
  induction hooks generalizing s with
  | nil =>
    simp only [trace] at htr
    injection htr with htr
    subst htr
    exact ⟨rfl, rfl⟩
  | cons hd rest ih =>
    obtain ⟨hk, now⟩ := hd
    simp only [trace] at htr
    split at htr
    · cases htr
    · rename_i s1 hs1
      have hstep := fire_keeps_tls_stamps s s1 hk now (hno (hk, now) (List.mem_cons_self _ _)) hs1
      have hrest := ih s1 (fun h hh => hno h (List.mem_cons_of_mem _ hh)) htr
      exact ⟨hrest.1.trans hstep.1, hrest.2.trans hstep.2⟩

theorem runLoadTest_sent_tls_of_http (c : cassowary) (room : Nat)
    (jobs : List (String × Exchange)) (hc : c.isTLS = false) :
    ∀ r ∈ (runLoadTest c room jobs).sent, r.TLSHandshake = 0 := by
  induction jobs generalizing room with
  | nil => intro r hr; simp [runLoadTest] at hr
  | cons j rest ih =>
    obtain ⟨tok, x⟩ := j
    intro r hr
    simp only [runLoadTest] at hr
    split at hr
    · simp at hr
    · rename_i out hout
      cases room with
      | zero => simp at hr
      | succ room1 =>
        simp only [List.mem_cons] at hr
        rcases hr with hr | hr
        · subst hr; exact request_tls_of_http c x _ hc hout
        · exact ih room1 r hr

/-- A worker whose requests all succeed and whose sends all find room sends one record per
token, in order, and leaves its loop. -/
theorem runLoadTest_with_room (c : cassowary) (room : Nat) (jobs : List (String × Exchange))
    (h : ∀ j ∈ jobs, normal j.2 = true) (hroom : jobs.length ≤ room) :
    (runLoadTest c room jobs).halt = Halt.exited ∧
    (runLoadTest c room jobs).pulled = jobs.length ∧
    (runLoadTest c room jobs).sent.length = jobs.length ∧
    List.Forall₂ (fun j r => request c j.2 = .ok r) jobs (runLoadTest c room jobs).sent ∧
    (runLoadTest c room jobs).sent.map (fun r => r.StatusCode)
      = jobs.map (fun j => statusOf j.2) := by
  induction jobs generalizing room with
  | nil => simp [runLoadTest]
  | cons j rest ih =>
    obtain ⟨tok, x⟩ := j
    have hx : normal x = true := h (tok, x) (List.mem_cons_self _ _)
    obtain ⟨s, _, hreq⟩ := request_of_normal c x hx
    cases room with
    | zero => simp at hroom
    | succ room1 =>
      have hlen : rest.length ≤ room1 := by
        simp only [List.length_cons] at hroom
        omega
      obtain ⟨i1, i2, i3, i4, i5⟩ := ih room1 (fun j hj => h j (List.mem_cons_of_mem _ hj)) hlen
      refine ⟨?_, ?_, ?_, ?_, ?_⟩
      · simpa only [runLoadTest, hreq] using i1
      · simp only [runLoadTest, hreq, List.length_cons, i2]
      · simp only [runLoadTest, hreq, List.length_cons, i3]
      · simp only [runLoadTest, hreq]
        have hcons : List.Forall₂ (fun (j : String × Exchange) r => request c j.2 = .ok r)
            ((tok, x) :: rest)
            (metrics c.isTLS s x.t7 (statusOf x) :: (runLoadTest c room1 rest).sent) :=
          List.Forall₂.cons hreq i4
        exact hcons
      · simp only [runLoadTest, hreq, List.map_cons, i5, metrics_statusCode]

/-- A worker whose requests all succeed but which receives more tokens than its sends find
room sends `room` records and stays blocked at line 93 with one more token received. -/
theorem runLoadTest_without_room (c : cassowary) (room : Nat)
    (jobs : List (String × Exchange))
    (h : ∀ j ∈ jobs, normal j.2 = true) (hroom : room < jobs.length) :
    (runLoadTest c room jobs).halt = Halt.blocked ∧
    (runLoadTest c room jobs).pulled = room + 1 ∧
    (runLoadTest c room jobs).sent.length = room := by
  induction jobs generalizing room with
  | nil => simp at hroom
  | cons j rest ih =>
    obtain ⟨tok, x⟩ := j
    have hx : normal x = true := h (tok, x) (List.mem_cons_self _ _)
    obtain ⟨s, _, hreq⟩ := request_of_normal c x hx
    cases room with
    | zero => simp [runLoadTest, hreq]
    | succ room1 =>
      have hlen : room1 < rest.length := by
        simp only [List.length_cons] at hroom
        omega
      obtain ⟨i1, i2, i3⟩ := ih room1 (fun j hj => h j (List.mem_cons_of_mem _ hj)) hlen
      simp only [runLoadTest, hreq, List.length_cons, i1, i2, i3, and_self]

end WorkerLemmas

/-! Facts about the two dispatch loops -/

section DispatchLemmas

open coordinate

theorem pushPlaceholders_eq (k : Nat) (queue : List QueueOp) :
    pushPlaceholders k queue = queue ++ List.replicate k (QueueOp.send "a") := by
  induction k generalizing queue with
  | zero => simp [pushPlaceholders]
  | succ k ih =>
    rw [pushPlaceholders, ih, List.replicate_succ]
    simp

theorem pushSuffixes_eq (urlSuffixes : List String) (queue : List QueueOp) :
    pushSuffixes queue urlSuffixes = queue ++ urlSuffixes.map QueueOp.send := by
  induction urlSuffixes generalizing queue with
  | nil => simp [pushSuffixes]
  | cons line rest ih =>
    have hstep : pushSuffixes queue (line :: rest)
        = pushSuffixes (queue ++ [QueueOp.send line]) rest := rfl
    rw [hstep, ih]
    simp

/-- In file mode, when the scheme check and the file reader succeed, `coordinate` sends every
suffix and then one placeholder per suffix before it closes the queue. -/
theorem dispatch_fileMode_queue (chanLimit workerLimit : Int) (isTLS : String → Option Bool)
    (readFile : String → Option (List String)) (c : cassowary) (tls : Bool)
    (urlSuffixes : List String) (hmode : c.fileMode = true) (hc : 0 ≤ c.concurrencyLevel)
    (hlim : (urlSuffixes.length : Int) ≤ chanLimit) (hwl : c.concurrencyLevel ≤ workerLimit)
    (hurl : isTLS c.baseURL = some tls) (hfile : readFile c.inputFile = some urlSuffixes) :
    dispatch chanLimit workerLimit isTLS readFile c = .ok
      { isTLS := tls
        requests := (urlSuffixes.length : Int)
        resultsCap := (urlSuffixes.length : Int)
        workers := c.concurrencyLevel
        queue := urlSuffixes.map QueueOp.send
          ++ List.replicate urlSuffixes.length (QueueOp.send "a") ++ [QueueOp.close] } := by
  unfold dispatch
  simp only [hurl, hmode, if_true, hfile]
  rw [if_neg (by omega), if_neg (by omega), if_neg (by omega), if_neg (by omega),
    pushPlaceholders_eq, pushSuffixes_eq]
  simp

end DispatchLemmas

/-! Facts about `coordinate` running with its workers -/

section RunLemmas

open coordinate runLoadTest

theorem step_budget (c : cassowary) (world : Nat → Exchange) (s s2 : Run) (a : Action)
    (h : step c world s a = some s2) : budget s2 < budget s := by
  obtain ⟨todo, queue, closed, receiving, sending, finished, channel, capacity, issued, died⟩ :=
    s
  cases a with
  | take =>
    simp only [step] at h
    split at h
    · cases h
    · split at h
      · split at h <;>
        · injection h with h
          subst h
          simp only [budget, List.length_cons, List.length_append, List.length_nil]
          omega
      · cases h
  | emit k =>
    simp only [step] at h
    split at h
    · cases h
    · split at h
      · rename_i out hout
        split at h
        · injection h with h
          subst h
          have hk : k < sending.length := (List.getElem?_eq_some.mp hout).1
          simp only [budget, List.length_eraseIdx, hk, if_true]
          omega
        · cases h
      · cases h
  | close =>
    simp only [step] at h
    split at h
    · cases h
    · split at h
      · injection h with h
        subst h
        simp only [budget, List.length_cons]
        omega
      · cases h
  | leave =>
    simp only [step] at h
    split at h
    · cases h
    · split at h
      · injection h with h
        subst h
        simp only [budget]
        omega
      · cases h

theorem exec_budget (c : cassowary) (world : Nat → Exchange) (acts : List Action)
    (s s2 : Run) (h : exec c world s acts = some s2) :
    acts.length + budget s2 ≤ budget s := by
  induction acts generalizing s with
  | nil =>
    simp only [exec] at h
    injection h with h
    subst h
    simp
  | cons a rest ih =>
    simp only [exec] at h
    split at h
    · cases h
    · rename_i s1 hs1
      have h1 := step_budget c world s s1 a hs1
      have h2 := ih s1 h
      simp only [List.length_cons]
      omega

theorem countInv_step (c : cassowary) (world : Nat → Exchange) (R C : Nat) (s s2 : Run)
    (a : Action) (hw : ∀ i, i < R → normal (world i) = true) (hinv : CountInv R C s)
    (h : step c world s a = some s2) : CountInv R C s2 := by
  obtain ⟨todo, queue, closed, receiving, sending, finished, channel, capacity, issued, died⟩ :=
    s
  obtain ⟨hd, hcap, hsum, hcase⟩ := hinv
  simp only at hd hcap hsum hcase
  subst hd
  cases a with
  | take =>
    simp only [step, Option.isSome_none, Bool.false_eq_true, if_false] at h
    split at h
    · rename_i token rest r
      rcases hcase with ⟨j, k, hjk, htd, hq, hcl, hfin, hch, hiss⟩ | ⟨htd, _⟩
      · cases k with
        | zero => simp at htd
        | succ k =>
          obtain ⟨st, _, hreq⟩ :=
            request_of_normal c (world issued) (hw issued (by omega))
          rw [hreq] at h
          simp only at h
          injection h with h
          subst h
          simp only [List.replicate_succ, List.cons_append, List.cons.injEq] at htd
          obtain ⟨htok, hrest⟩ := htd
          refine ⟨rfl, hcap, ?_, Or.inl ⟨j + 1, k, by omega, hrest, ?_, hcl, hfin, ?_, ?_⟩⟩
          · simp only [List.length_append, List.length_cons, List.length_nil]
            omega
          · simp only [hq, htok, List.replicate_succ']
          · simp only [List.length_append, List.length_cons, List.length_nil]
            omega
          · dsimp only at hiss ⊢
            omega
      · cases htd
    · cases h
  | emit k =>
    simp only [step, Option.isSome_none, Bool.false_eq_true, if_false] at h
    split at h
    · rename_i out hout
      split at h
      · rename_i hroom
        injection h with h
        subst h
        have hk : k < sending.length := (List.getElem?_eq_some.mp hout).1
        have hlen : (sending.eraseIdx k).length = sending.length - 1 := by
          rw [List.length_eraseIdx, if_pos hk]
        refine ⟨rfl, hcap, ?_, ?_⟩
        · simp only [hlen]
          omega
        · rcases hcase with ⟨j, k2, hjk, htd, hq, hcl, hfin, hch, hiss⟩ | ⟨htd, hq, hcl, hch⟩
          · refine Or.inl ⟨j, k2, hjk, htd, hq, hcl, hfin, ?_, hiss⟩
            simp only [hlen, List.length_append, List.length_cons, List.length_nil]
            omega
          · refine Or.inr ⟨htd, hq, hcl, ?_⟩
            simp only [hlen, List.length_append, List.length_cons, List.length_nil]
            omega
      · cases h
    · cases h
  | close =>
    simp only [step, Option.isSome_none, Bool.false_eq_true, if_false] at h
    split at h
    · rename_i rest
      injection h with h
      subst h
      rcases hcase with ⟨j, k, hjk, htd, hq, hcl, hfin, hch, hiss⟩ | ⟨htd, _⟩
      · cases k with
        | zero =>
          simp only [List.replicate_zero, List.nil_append, List.cons.injEq, true_and] at htd
          have hj : j = R := by omega
          refine ⟨rfl, hcap, hsum, Or.inr ⟨htd, ?_, rfl, ?_⟩⟩
          · simp only [hq, hj]
          · dsimp only
            omega
        | succ k => simp [List.replicate_succ] at htd
      · cases htd
    · cases h
  | leave =>
    simp only [step, Option.isSome_none, Bool.false_eq_true, if_false] at h
    split at h
    · rename_i r
      injection h with h
      subst h
      rcases hcase with ⟨j, k, hjk, htd, hq, hcl, hfin, hch, hiss⟩ | ⟨htd, hq, hcl, hch⟩
      · cases hcl
      · refine ⟨rfl, hcap, ?_, Or.inr ⟨htd, hq, rfl, hch⟩⟩
        dsimp only
        omega
    · cases h

theorem countInv_exec (c : cassowary) (world : Nat → Exchange) (R C : Nat)
    (acts : List Action) (s s2 : Run) (hw : ∀ i, i < R → normal (world i) = true)
    (hinv : CountInv R C s) (h : exec c world s acts = some s2) : CountInv R C s2 := by
  induction acts generalizing s with
  | nil =>
    simp only [exec] at h
    injection h with h
    subst h
    exact hinv
  | cons a rest ih =>
    simp only [exec] at h
    split at h
    · cases h
    · rename_i s1 hs1
      exact ih s1 (countInv_step c world R C s s1 a hw hinv hs1) h

theorem countInv_program (R C : Nat) (s : Run) (hinv : CountInv R C s) :
    s.queue ++ s.todo = List.replicate R (QueueOp.send "a") ++ [QueueOp.close] := by
  obtain ⟨_, _, _, hcase⟩ := hinv
  rcases hcase with ⟨j, k, hjk, htd, hq, _, _, _, _⟩ | ⟨htd, hq, _, _⟩
  · rw [htd, hq, ← hjk, List.replicate_add, List.append_assoc]
  · rw [htd, hq, List.append_nil]

theorem countInv_stuck (c : cassowary) (world : Nat → Exchange) (R C : Nat) (s : Run)
    (hw : ∀ i, i < R → normal (world i) = true) (hC : 1 ≤ C) (hinv : CountInv R C s)
    (hstuck : stuck c world s = true) :
    s.todo = [] ∧ s.queue = List.replicate R (QueueOp.send "a") ++ [QueueOp.close] ∧
    s.closed = true ∧ s.finished = C ∧ s.channel.length = R := by
  obtain ⟨todo, queue, closed, receiving, sending, finished, channel, capacity, issued, died⟩ :=
    s
  obtain ⟨hd, hcap, hsum, hcase⟩ := hinv
  simp only at hd hcap hsum hcase
  subst hd
  simp only [stuck, Bool.and_eq_true, Option.isNone_iff_eq_none] at hstuck
  obtain ⟨⟨⟨htake, hemit⟩, hclose⟩, hleave⟩ := hstuck
  have hsend : sending = [] := by
    cases sending with
    | nil => rfl
    | cons out more =>
      exfalso
      have hroom : channel.length < capacity := by
        rcases hcase with ⟨j, k, hjk, _, _, _, _, hch, _⟩ | ⟨_, _, _, hch⟩ <;>
          simp only [List.length_cons] at hch <;> omega
      simp [step, hroom] at hemit
  subst hsend
  rcases hcase with ⟨j, k, hjk, htd, hq, hcl, hfin, hch, hiss⟩ | ⟨htd, hq, hcl, hch⟩
  · exfalso
    cases k with
    | zero =>
      simp only [List.replicate_zero, List.nil_append] at htd
      subst htd
      simp [step] at hclose
    | succ k =>
      simp only [List.replicate_succ, List.cons_append] at htd
      subst htd
      subst hfin
      have hrecv : receiving = C := by
        simp only [List.length_nil] at hsum
        omega
      obtain ⟨r, hr⟩ : ∃ r, receiving = r + 1 := ⟨C - 1, by omega⟩
      subst hr
      obtain ⟨st, _, hreq⟩ :=
        request_of_normal c (world issued) (hw issued (by omega))
      simp [step, hreq] at htake
  · subst htd hcl
    have hrecv : receiving = 0 := by
      cases receiving with
      | zero => rfl
      | succ r => simp [step] at hleave
    subst hrecv
    simp only [List.length_nil] at hsum hch
    refine ⟨rfl, hq, rfl, ?_, ?_⟩
    · dsimp only
      omega
    · dsimp only
      omega

theorem stuck_of_budget_zero (c : cassowary) (world : Nat → Exchange) (s : Run)
    (h : budget s = 0) : stuck c world s = true := by
  have hnone : ∀ a, step c world s a = none := by
    intro a
    cases hs : step c world s a with
    | none => rfl
    | some s2 =>
      have := step_budget c world s s2 a hs
      omega
  simp [stuck, hnone]

theorem stuck_of_next_none (c : cassowary) (world : Nat → Exchange) (s : Run)
    (h : next c world s = none) : stuck c world s = true := by
  unfold next at h
  split at h
  · cases h
  · split at h
    · cases h
    · split at h
      · cases h
      · split at h
        · cases h
        · rename_i h1 h2 h3 h4
          simp only [Bool.not_eq_true, Option.not_isSome, Option.isNone_iff_eq_none] at h1 h2 h3 h4
          simp [stuck, h1, h2, h3, h4]

/-- With enough fuel the run chosen by `schedule` comes to rest. -/
theorem schedule_rests (c : cassowary) (world : Nat → Exchange) (fuel : Nat) (s : Run)
    (h : budget s ≤ fuel) :
    ∃ s2, exec c world s (schedule c world fuel s) = some s2 ∧ stuck c world s2 = true := by
  induction fuel generalizing s with
  | zero => exact ⟨s, rfl, stuck_of_budget_zero c world s (by omega)⟩
  | succ fuel ih =>
    cases hn : next c world s with
    | none =>
      refine ⟨s, ?_, stuck_of_next_none c world s hn⟩
      simp [schedule, hn, exec]
    | some a =>
      cases hs : step c world s a with
      | none =>
        exfalso
        unfold next at hn
        split at hn
        · injection hn with hn; subst hn; simp_all
        · split at hn
          · injection hn with hn; subst hn; simp_all
          · split at hn
            · injection hn with hn; subst hn; simp_all
            · split at hn
              · injection hn with hn; subst hn; simp_all
              · cases hn
      | some s1 =>
        have hb := step_budget c world s s1 a hs
        obtain ⟨s2, he, hst⟩ := ih s1 (by omega)
        refine ⟨s2, ?_, hst⟩
        simp [schedule, hn, hs, exec, he]

theorem dispatch_countMode (chanLimit workerLimit : Int) (isTLS : String → Option Bool)
    (readFile : String → Option (List String)) (c : cassowary) (tls : Bool)
    (hmode : c.fileMode = false) (hR : 0 ≤ c.requests) (hlim : c.requests ≤ chanLimit)
    (hC : 0 ≤ c.concurrencyLevel) (hwl : c.concurrencyLevel ≤ workerLimit)
    (hurl : isTLS c.baseURL = some tls) :
    dispatch chanLimit workerLimit isTLS readFile c = .ok
      { isTLS := tls
        requests := c.requests
        resultsCap := c.requests
        workers := c.concurrencyLevel
        queue := List.replicate c.requests.toNat (QueueOp.send "a") ++ [QueueOp.close] } := by
  unfold dispatch
  simp only [hurl, hmode, Bool.false_eq_true, if_false]
  rw [if_neg (by omega), if_neg (by omega), if_neg (by omega), if_neg (by omega),
    pushPlaceholders_eq]
  simp

theorem countInv_start (d : Dispatch)
    (hq : d.queue = List.replicate d.resultsCap.toNat (QueueOp.send "a") ++ [QueueOp.close]) :
    CountInv d.resultsCap.toNat d.workers.toNat (start d) := by
  refine ⟨rfl, rfl, ?_, Or.inl ⟨0, d.resultsCap.toNat, by omega, hq, rfl, rfl, rfl, rfl, rfl⟩⟩
  simp [start]

end RunLemmas

/-! Sample selection (claims about lines 168-203) -/

section Aggregator

open coordinate

/-- C8: for every list of drained records the TCP sample is exactly the `TCPConn` values of the
records with `TCPConn < 1000`, in drain order; records of 1000 ms or more are dropped, all
others (negative values included) are kept unchanged. -/
theorem tcp_sample_keeps_exactly_below_1000 (isTLS : Bool) (rs : List durationMetrics) :
    (drain isTLS rs).tcpDur
      = (rs.filter (fun r => decide (r.TCPConn < 1000))).map (fun r => r.TCPConn) := by
  unfold drain
  rw [fold_tcpDur]
  simp [Samples.empty]

/-- C9: sample selection is order-independent. For two lists of drained records that are
permutations of each other and the same HTTPS flag, each of the DNS, TCP, TLS,
server-processing and content-transfer samples and the status-code list built from one is a
permutation of the one built from the other. -/
theorem samples_perm_of_records_perm (isTLS : Bool) (rs rs2 : List durationMetrics)
    (h : rs.Perm rs2) :
    (drain isTLS rs).dnsDur.Perm (drain isTLS rs2).dnsDur ∧
    (drain isTLS rs).tcpDur.Perm (drain isTLS rs2).tcpDur ∧
    (drain isTLS rs).tlsDur.Perm (drain isTLS rs2).tlsDur ∧
    (drain isTLS rs).serverDur.Perm (drain isTLS rs2).serverDur ∧
    (drain isTLS rs).transferDur.Perm (drain isTLS rs2).transferDur ∧
    (drain isTLS rs).statusCodes.Perm (drain isTLS rs2).statusCodes := by
  unfold drain
  rw [fold_dnsDur, fold_dnsDur, fold_tcpDur, fold_tcpDur, fold_tlsDur, fold_tlsDur,
    fold_serverDur, fold_serverDur, fold_transferDur, fold_transferDur,
    fold_statusCodes, fold_statusCodes]
  simp only [Samples.empty, List.nil_append]
  refine ⟨(h.filter _).map _, (h.filter _).map _, ?_, h.map _, h.map _, h.map _⟩
  cases isTLS
  · exact List.Perm.refl _
  · exact h.map _

/-- Witness for C9: the two orders of a fresh and a reused record. -/
theorem samples_perm_of_records_perm_witness :
    [Sample.freshRecord, Sample.reusedRecord].Perm [Sample.reusedRecord, Sample.freshRecord] ∧
    (drain true [Sample.freshRecord, Sample.reusedRecord]).tcpDur.Perm
      (drain true [Sample.reusedRecord, Sample.freshRecord]).tcpDur :=
  ⟨List.Perm.swap _ _ _,
   (samples_perm_of_records_perm true [Sample.freshRecord, Sample.reusedRecord]
      [Sample.reusedRecord, Sample.freshRecord] (List.Perm.swap _ _ _)).2.1⟩

end Aggregator

/-! The worker (claims about lines 29-95) -/

section Worker

open coordinate runLoadTest

/-- C3, evaluated on the file-mode run with the single suffix `/x` and one worker, both requests
succeeding: `coordinate` sizes the results channel for 1 record and sends 2 tokens; the worker
receives both, its first record enters the channel, its second send never completes, and
nothing more can happen: the worker has pulled 2 tokens and sent 1 record, and never leaves its
loop. -/
theorem fileMode_worker_pulls_two_sends_one :
    dispatch Sample.chanLimit Sample.workerLimit Sample.plainScheme Sample.oneSuffix Sample.fromFile
      = .ok Sample.fromFileDispatch ∧
    normal (Sample.steady 0) = true ∧ normal (Sample.steady 1) = true ∧
    exec (configured Sample.fromFile Sample.fromFileDispatch) Sample.steady
        (start Sample.fromFileDispatch)
        [Action.take, Action.emit 0, Action.take, Action.close]
      = some
        { todo := [], queue := [QueueOp.send "/x", QueueOp.send "a", QueueOp.close],
          closed := true, receiving := 0, sending := [Sample.reusedPlain], finished := 0,
          channel := [Sample.freshPlain], capacity := 1, issued := 2, died := none } ∧
    stuck (configured Sample.fromFile Sample.fromFileDispatch) Sample.steady
        { todo := [], queue := [QueueOp.send "/x", QueueOp.send "a", QueueOp.close],
          closed := true, receiving := 0, sending := [Sample.reusedPlain], finished := 0,
          channel := [Sample.freshPlain], capacity := 1, issued := 2, died := none } = true ∧
    runLoadTest (configured Sample.fromFile Sample.fromFileDispatch) 1
        [("/x", Sample.steady 0), ("a", Sample.steady 1)]
      = ⟨2, [Sample.freshPlain], Halt.blocked⟩ := by
  decide

/-- C4: for a request all of whose timestamps were recorded (at monotonic instants `m0`, `m1`,
`m3`, `m4`, `m7`, and `m5`, `m6` for an HTTPS target), the record holds the nanosecond
differences divided by 1,000,000 and truncated toward zero: DNSLookup = t1 - t0,
TCPConn = t3 - t1, ServerProcessing = t4 - t3, ContentTransfer = t7 - t4, and
TLSHandshake = t6 - t5 for HTTPS, 0 otherwise. -/
theorem phase_durations_in_whole_milliseconds (c : cassowary) (x : Exchange) (s : Stamps)
    (m0 m1 m3 m4 m5 m6 m7 : Int)
    (hx : normal x = true) (htr : trace Stamps.init x.hooks = .ok s)
    (h0 : s.t0.readAt m0) (h1 : s.t1.readAt m1) (h3 : s.t3.readAt m3) (h4 : s.t4.readAt m4)
    (h5 : c.isTLS = true → s.t5.readAt m5) (h6 : c.isTLS = true → s.t6.readAt m6)
    (h7 : x.t7.readAt m7) :
    request c x = .ok
      { DNSLookup := Int.tdiv (m1 - m0) 1000000
        TCPConn := Int.tdiv (m3 - m1) 1000000
        TLSHandshake := if c.isTLS then Int.tdiv (m6 - m5) 1000000 else 0
        ServerProcessing := Int.tdiv (m4 - m3) 1000000
        ContentTransfer := Int.tdiv (m7 - m4) 1000000
        StatusCode := statusOf x } := by
  rw [request_eq_of_trace c x s hx htr]
  have hz : s.t0.IsZero = false := by
    have := h0.1
    simpa [Time.IsZero] using this
  cases hc : c.isTLS with
  | false =>
    simp only [metrics, hz, ms, Millisecond, sub_of_readAt _ _ _ _ h1 h0,
      sub_of_readAt _ _ _ _ h3 h1, sub_of_readAt _ _ _ _ h4 h3, sub_of_readAt _ _ _ _ h7 h4]
    simp [sub_of_readAt _ _ _ _ h1 h0]
  | true =>
    simp only [metrics, hz, ms, Millisecond, sub_of_readAt _ _ _ _ h1 h0,
      sub_of_readAt _ _ _ _ h3 h1, sub_of_readAt _ _ _ _ h4 h3, sub_of_readAt _ _ _ _ h7 h4,
      sub_of_readAt _ _ _ _ (h6 hc) (h5 hc)]
    simp [sub_of_readAt _ _ _ _ h1 h0]

/-- Witness for C4: the request `Sample.fresh` against an HTTPS target. -/
theorem phase_durations_in_whole_milliseconds_witness :
    normal Sample.fresh = true ∧
    trace Stamps.init Sample.fresh.hooks = .ok Sample.freshStamps ∧
    request Sample.https Sample.fresh = .ok Sample.freshRecord :=
  ⟨by decide, by decide,
   phase_durations_in_whole_milliseconds Sample.https Sample.fresh Sample.freshStamps
    1000000 3000000 29200000 80000000 9100000 29100000 95000000
    (by decide) (by decide) (by decide) (by decide) (by decide) (by decide)
    (fun _ => by decide) (fun _ => by decide) (by decide)⟩

/-- C5, counterexample: the request `Sample.quickDNS` performs a DNS lookup (DNS-start is
recorded, timestamps increase) that lasts 500000 ns; its DNS duration is 0 and the aggregator
leaves it out of the DNS sample. -/
theorem dns_lookup_under_one_ms_is_dropped :
    normal Sample.quickDNS = true ∧
    (Hook.DNSStart, Sample.clock 1000000) ∈ Sample.quickDNS.hooks ∧
    trace Stamps.init Sample.quickDNS.hooks = .ok Sample.quickDNSStamps ∧
    Sample.quickDNSStamps.t0.IsZero = false ∧
    Sample.quickDNSStamps.t0.readAt 1000000 ∧
    Sample.quickDNSStamps.t1.readAt 1500000 ∧
    Sample.quickDNSStamps.t3.readAt 9100000 ∧
    Sample.quickDNSStamps.t4.readAt 80000000 ∧
    Sample.quickDNS.t7.readAt 95000000 ∧
    request Sample.http Sample.quickDNS = .ok ⟨0, 7, 0, 70, 15, 200⟩ ∧
    (drain false [⟨0, 7, 0, 70, 15, 200⟩]).dnsDur = [] := by
  decide

/-- C5, amended: for a completed request, when DNS-start is absent the DNS-done timestamp is
substituted and the DNS duration is exactly 0; when DNS-start and DNS-done were recorded in
non-decreasing order the DNS duration is nonzero if and only if DNS-done lies at least
1,000,000 ns after DNS-start; the aggregator appends the record to the DNS sample exactly when
its DNS duration is nonzero. -/
theorem dns_duration_nonzero_iff_one_ms (c : cassowary) (x : Exchange) (s : Stamps)
    (r : durationMetrics)
    (hreq : request c x = .ok r) (htr : trace Stamps.init x.hooks = .ok s) :
    (s.t0.IsZero = true → r.DNSLookup = 0) ∧
    (∀ m0 m1 : Int, s.t0.readAt m0 → s.t1.readAt m1 → m0 ≤ m1 →
      (r.DNSLookup ≠ 0 ↔ 1000000 ≤ m1 - m0)) ∧
    (∀ acc : Samples, r.DNSLookup ≠ 0 →
      (drainItem c.isTLS acc r).dnsDur = acc.dnsDur ++ [r.DNSLookup]) ∧
    (∀ acc : Samples, r.DNSLookup = 0 → (drainItem c.isTLS acc r).dnsDur = acc.dnsDur) := by
  obtain ⟨code, hcode⟩ := request_ok_inv c x s r hreq htr
  refine ⟨?_, ?_, ?_, ?_⟩
  · intro hz
    rw [hcode, metrics_dnsLookup, hz, if_pos rfl, sub_self]
    rfl
  · intro m0 m1 h0 h1 hle
    have hz : s.t0.IsZero = false := by
      have := h0.1
      simpa [Time.IsZero] using this
    rw [hcode, metrics_dnsLookup, hz, if_neg (by decide), sub_of_readAt _ _ _ _ h1 h0,
      ms_of_nonneg _ (by omega)]
    omega
  · intro acc hne
    rw [drainItem_dnsDur]
    simp [hne]
  · intro acc he
    rw [drainItem_dnsDur]
    simp [he]

/-- Witness for C5 (amended): `Sample.fresh`, whose DNS lookup takes 2 ms, has a nonzero DNS
duration. -/
theorem dns_duration_nonzero_iff_one_ms_witness :
    request Sample.http Sample.fresh = .ok ⟨2, 26, 0, 50, 15, 200⟩ ∧
    trace Stamps.init Sample.fresh.hooks = .ok Sample.freshStamps ∧
    Sample.freshStamps.t0.readAt 1000000 ∧ Sample.freshStamps.t1.readAt 3000000 ∧
    (2 : Int) ≠ 0 :=
  ⟨by decide, by decide, by decide, by decide,
   ((dns_duration_nonzero_iff_one_ms Sample.http Sample.fresh Sample.freshStamps
      ⟨2, 26, 0, 50, 15, 200⟩ (by decide) (by decide)).2.1 1000000 3000000
      (by decide) (by decide) (by decide)).mpr (by decide)⟩

/-- C6, counterexample: an HTTPS run in which one worker serves two tokens, the second on the
kept-alive connection of the first; both requests complete, and the TLS sample the aggregator
builds contains a zero. -/
theorem https_run_has_zero_tls_duration :
    Sample.https.isTLS = true ∧
    runLoadTest Sample.https 2 [("a", Sample.fresh), ("a", Sample.reused)]
      = ⟨2, [Sample.freshRecord, Sample.reusedRecord], Halt.exited⟩ ∧
    (drain Sample.https.isTLS [Sample.freshRecord, Sample.reusedRecord]).tlsDur = [20, 0] ∧
    (0 : Int) ∈ (drain Sample.https.isTLS [Sample.freshRecord, Sample.reusedRecord]).tlsDur := by
  decide

/-- C6, amended: for an HTTPS target and every run with at least one drained record the TLS
statistics are present: the TLS sample is non-empty and holds the TLS handshake duration of
every drained record, in drain order, and the TLS mean, median and 95th percentile are computed
from it. The duration of a completed request is nonzero if and only if its TLS-done lies at
least 1,000,000 ns after its TLS-start, when both were recorded in non-decreasing order; it is 0
for a request during which no TLS handshake hook fires. -/
theorem https_tls_sample_present {F : Type} [Zero F] (calcMean calcMedian : List Int → F)
    (calc95Percentile : List Int → String) (rs : List durationMetrics) (h : rs ≠ []) :
    (drain true rs).tlsDur ≠ [] ∧
    (drain true rs).tlsDur = rs.map (fun r => r.TLSHandshake) ∧
    tlsSummary calcMean calcMedian calc95Percentile true (drain true rs).tlsDur
      = ⟨calcMean (drain true rs).tlsDur, calcMedian (drain true rs).tlsDur,
         calc95Percentile (drain true rs).tlsDur⟩ ∧
    (∀ (c : cassowary) (x : Exchange) (s : Stamps) (r : durationMetrics),
      c.isTLS = true → request c x = .ok r → trace Stamps.init x.hooks = .ok s →
        (∀ m5 m6 : Int, s.t5.readAt m5 → s.t6.readAt m6 → m5 ≤ m6 →
          (r.TLSHandshake ≠ 0 ↔ 1000000 ≤ m6 - m5)) ∧
        ((∀ k ∈ x.hooks, k.1 ≠ Hook.TLSHandshakeStart ∧ k.1 ≠ Hook.TLSHandshakeDone) →
          r.TLSHandshake = 0)) := by
  have hmap : (drain true rs).tlsDur = rs.map (fun r => r.TLSHandshake) := by
    unfold drain
    rw [fold_tlsDur]
    simp [Samples.empty]
  refine ⟨?_, hmap, rfl, ?_⟩
  · rw [hmap]
    simpa using h
  · intro c x s r hc hreq htr
    obtain ⟨code, hcode⟩ := request_ok_inv c x s r hreq htr
    rw [hc] at hcode
    refine ⟨?_, ?_⟩
    · intro m5 m6 h5 h6 hle
      rw [hcode, metrics_tlsHandshake, sub_of_readAt _ _ _ _ h6 h5, ms_of_nonneg _ (by omega)]
      omega
    · intro hno
      obtain ⟨e5, e6⟩ := trace_keeps_tls_stamps x.hooks Stamps.init s hno htr
      have e5z : s.t5 = Time.zero := e5
      have e6z : s.t6 = Time.zero := e6
      rw [hcode, metrics_tlsHandshake, e5z, e6z, sub_self]
      rfl

/-- Witness for C6 (amended): the drained records of one fresh and one reused request; the
handshake of the fresh request lasts 20 ms, the reused request fires no TLS hook. -/
theorem https_tls_sample_present_witness :
    [Sample.freshRecord, Sample.reusedRecord] ≠ [] ∧
    (drain true [Sample.freshRecord, Sample.reusedRecord]).tlsDur
      = [Sample.freshRecord, Sample.reusedRecord].map (fun r => r.TLSHandshake) ∧
    Sample.freshRecord.TLSHandshake ≠ 0 ∧ Sample.reusedRecord.TLSHandshake = 0 :=
  have w := https_tls_sample_present (fun _ => (0 : Int)) (fun _ => (0 : Int)) (fun _ => "")
    [Sample.freshRecord, Sample.reusedRecord] (by decide)
  ⟨by decide, w.2.1,
   ((w.2.2.2 Sample.https Sample.fresh Sample.freshStamps Sample.freshRecord
      (by decide) (by decide) (by decide)).1 9100000 29100000
      (by decide) (by decide) (by decide)).mpr (by decide),
   (w.2.2.2 Sample.https Sample.reused Sample.reusedStamps Sample.reusedRecord
      (by decide) (by decide) (by decide)).2 (by decide)⟩

/-- C7: for an HTTP-only target no drained record is added to the TLS sample, every record a
worker emits has TLSHandshake = 0, and the TLS mean and median stay 0 and the TLS 95th
percentile stays the empty string; for an HTTPS target the TLS sample holds the TLSHandshake of
every drained record, so its length is the record count. -/
theorem tls_sample_only_for_https {F : Type} [Zero F] (calcMean calcMedian : List Int → F)
    (calc95Percentile : List Int → String) (c : cassowary) (room : Nat)
    (jobs : List (String × Exchange)) (rs : List durationMetrics) (hc : c.isTLS = false) :
    (drain c.isTLS rs).tlsDur = [] ∧
    (∀ (acc : Samples) (r : durationMetrics), (drainItem c.isTLS acc r).tlsDur = acc.tlsDur) ∧
    (∀ r ∈ (runLoadTest c room jobs).sent, r.TLSHandshake = 0) ∧
    tlsSummary calcMean calcMedian calc95Percentile c.isTLS (drain c.isTLS rs).tlsDur
      = ⟨0, 0, ""⟩ ∧
    (drain true rs).tlsDur = rs.map (fun r => r.TLSHandshake) ∧
    (drain true rs).tlsDur.length = rs.length := by
  have hmap : (drain true rs).tlsDur = rs.map (fun r => r.TLSHandshake) := by
    unfold drain
    rw [fold_tlsDur]
    simp [Samples.empty]
  refine ⟨?_, ?_, runLoadTest_sent_tls_of_http c room jobs hc, ?_, hmap, ?_⟩
  · rw [hc]
    unfold drain
    rw [fold_tlsDur]
    simp [Samples.empty]
  · intro acc r
    rw [hc, drainItem_tlsDur]
    simp
  · rw [hc]
    rfl
  · rw [hmap, List.length_map]

/-- Witness for C7: an HTTP-only target, one worker serving a fresh and a reused request. -/
theorem tls_sample_only_for_https_witness :
    Sample.http.isTLS = false ∧
    (∀ r ∈ (runLoadTest Sample.http 2 [("a", Sample.fresh), ("a", Sample.reused)]).sent,
      r.TLSHandshake = 0) :=
  ⟨by decide,
   (tls_sample_only_for_https (fun _ => (0 : Int)) (fun _ => (0 : Int)) (fun _ => "")
      Sample.http 2 [("a", Sample.fresh), ("a", Sample.reused)]
      [Sample.freshRecord, Sample.reusedRecord] (by decide)).2.2.1⟩

/-- C10: for a request served on a reused connection, during which none of DNS-start, DNS-done
and connect-start fires, t0 and t1 stay the zero time, the record has DNSLookup = 0 and its
TCPConn is the time from the zero time to connection-obtained (saturated), hence at least 1000
ms when connection-obtained lies 1,000,000,000 ns or more after the zero time; the aggregator
then adds the record to neither the DNS sample nor the TCP sample and still appends it to the
server-processing, content-transfer and status-code lists. -/
theorem reused_connection_record_skips_dns_and_tcp (c : cassowary) (x : Exchange) (s : Stamps)
    (hx : normal x = true)
    (hno : ∀ h ∈ x.hooks,
      h.1 ≠ Hook.DNSStart ∧ h.1 ≠ Hook.DNSDone ∧ h.1 ≠ Hook.ConnectStart)
    (htr : trace Stamps.init x.hooks = .ok s)
    (hconn : 1000000000 ≤ s.t3.wall) :
    s.t0 = Time.zero ∧ s.t1 = Time.zero ∧
    ∃ r, request c x = .ok r ∧
      r.DNSLookup = 0 ∧
      r.TCPConn = ms (saturate (s.t3.wall - Time.zero.wall)) ∧
      1000 ≤ r.TCPConn ∧
      ∀ acc : Samples,
        (drainItem c.isTLS acc r).dnsDur = acc.dnsDur ∧
        (drainItem c.isTLS acc r).tcpDur = acc.tcpDur ∧
        (drainItem c.isTLS acc r).serverDur = acc.serverDur ++ [r.ServerProcessing] ∧
        (drainItem c.isTLS acc r).transferDur = acc.transferDur ++ [r.ContentTransfer] ∧
        (drainItem c.isTLS acc r).statusCodes = acc.statusCodes ++ [r.StatusCode] := by
  obtain ⟨h0, h1⟩ := trace_keeps_dns_stamps x.hooks Stamps.init s hno htr
  have h0z : s.t0 = Time.zero := h0
  have h1z : s.t1 = Time.zero := h1
  have hdns : (metrics c.isTLS s x.t7 (statusOf x)).DNSLookup = 0 := by
    rw [metrics_dnsLookup, h0z, h1z]
    simp [sub_self, ms]
  have htcp : (metrics c.isTLS s x.t7 (statusOf x)).TCPConn
      = ms (saturate (s.t3.wall - Time.zero.wall)) := by
    rw [metrics_tcpConn, h1z, sub_zero_eq]
    simp [Time.zero]
  have hbig : 1000 ≤ ms (saturate (s.t3.wall - Time.zero.wall)) := by
    have hsat : 1000000000 ≤ saturate (s.t3.wall - Time.zero.wall) := by
      simp only [Time.zero, sub_zero]
      unfold saturate minDuration maxDuration
      split
      · omega
      · split <;> omega
    rw [ms_of_nonneg _ (by omega)]
    omega
  refine ⟨h0z, h1z, _, request_eq_of_trace c x s hx htr, hdns, htcp, htcp ▸ hbig, ?_⟩
  intro acc
  refine ⟨?_, ?_, drainItem_serverDur _ _ _, drainItem_transferDur _ _ _,
    drainItem_statusCodes _ _ _⟩
  · rw [drainItem_dnsDur, hdns]
    simp
  · rw [drainItem_tcpDur, if_neg]
    rw [htcp]
    omega

/-- Witness for C10: the request `Sample.reused`, whose connection is obtained about 2025 years
after the zero time. -/
theorem reused_connection_record_skips_dns_and_tcp_witness :
    normal Sample.reused = true ∧
    trace Stamps.init Sample.reused.hooks = .ok Sample.reusedStamps ∧
    Sample.reusedStamps.t0 = Time.zero ∧ Sample.reusedStamps.t1 = Time.zero ∧
    ∃ r, request Sample.https Sample.reused = .ok r ∧ r.DNSLookup = 0 ∧ 1000 ≤ r.TCPConn :=
  have w := reused_connection_record_skips_dns_and_tcp Sample.https Sample.reused
    Sample.reusedStamps (by decide) (by decide) (by decide) (by decide)
  ⟨by decide, by decide, w.1, w.2.1,
   w.2.2.elim (fun r hr => ⟨r, hr.1, hr.2.1, hr.2.2.2.1⟩)⟩

end Worker

/-! The dispatcher (claims about lines 128-161) -/

section Dispatcher

open coordinate

/-- C1, evaluated on a suffix file with the single line `/x`: `coordinate` sets the request
count and the capacity of the results channel to 1, and sends two tokens, the suffix and then a
placeholder, before closing the work queue; with one worker and no failing request both sends
and the close complete. -/
theorem dispatch_fileMode_one_suffix :
    dispatch Sample.chanLimit Sample.workerLimit Sample.plainScheme Sample.oneSuffix
        Sample.fromFile
      = .ok
        { isTLS := false, requests := 1, resultsCap := 1, workers := 1,
          queue := [QueueOp.send "/x", QueueOp.send "a", QueueOp.close] } ∧
    (exec (configured Sample.fromFile Sample.fromFileDispatch) Sample.steady
        (start Sample.fromFileDispatch)
        [Action.take, Action.emit 0, Action.take, Action.close]).map
        (fun s => (s.queue, s.todo))
      = some ([QueueOp.send "/x", QueueOp.send "a", QueueOp.close], []) := by
  decide

/-- C2, counterexample: five count-mode runs in which `coordinate` does not send its R
placeholders and close the queue. With R = 2 ^ 62 `make` ends the process at line 139. With a
concurrency level of 2 ^ 31 the process ends at line 142. With one request and no worker nothing
can happen at line 152: the first send never completes and the queue is never closed. With two
requests, one worker and a failing first request the process ends with one token sent. With a
malformed URL `coordinate` returns at line 107. -/
theorem countMode_push_can_stop_short :
    dispatch Sample.chanLimit Sample.workerLimit Sample.plainScheme Sample.oneSuffix Sample.huge
      = .error Failure.panicked ∧
    dispatch Sample.chanLimit Sample.workerLimit Sample.plainScheme Sample.oneSuffix Sample.crowd
      = .error Failure.panicked ∧
    dispatch Sample.chanLimit Sample.workerLimit Sample.plainScheme Sample.oneSuffix
        Sample.noWorker
      = .ok Sample.noWorkerDispatch ∧
    stuck (configured Sample.noWorker Sample.noWorkerDispatch) Sample.steady
      (start Sample.noWorkerDispatch) = true ∧
    (start Sample.noWorkerDispatch).queue = [] ∧
    dispatch Sample.chanLimit Sample.workerLimit Sample.plainScheme Sample.oneSuffix Sample.http
      = .ok Sample.httpDispatch ∧
    exec (configured Sample.http Sample.httpDispatch) Sample.failing
        (start Sample.httpDispatch) [Action.take]
      = some
        { todo := [QueueOp.send "a", QueueOp.close], queue := [QueueOp.send "a"],
          closed := false, receiving := 0, sending := [], finished := 0, channel := [],
          capacity := 2, issued := 1, died := some Failure.panicked } ∧
    stuck (configured Sample.http Sample.httpDispatch) Sample.failing
        { todo := [QueueOp.send "a", QueueOp.close], queue := [QueueOp.send "a"],
          closed := false, receiving := 0, sending := [], finished := 0, channel := [],
          capacity := 2, issued := 1, died := some Failure.panicked } = true ∧
    dispatch Sample.chanLimit Sample.workerLimit Sample.badScheme Sample.oneSuffix Sample.http
      = .error Failure.returned := by
  decide

/-- C2, amended: in count mode, for every request count R >= 0 that `make` accepts as the
capacity of the results channel, when the URL scheme check succeeds, at least one worker and no
more than can be started is asked for, and no request fails, `coordinate` sends exactly R tokens
on the work queue, each the placeholder `"a"`, and then closes the queue, and sends nothing
after the close. There is a run that comes to rest. In every state a run reaches, the
operations done and still to do are the R placeholder sends followed by the close; a run has at
most `3 * (R + 1) + C` events; and when it is at rest all R sends and the close are done, every
worker has left its loop and the results channel holds R records. -/
theorem countMode_run_pushes_all (chanLimit workerLimit : Int)
    (isTLS : String → Option Bool) (readFile : String → Option (List String))
    (c : cassowary) (tls : Bool) (world : Nat → Exchange)
    (hmode : c.fileMode = false) (hR : 0 ≤ c.requests) (hlim : c.requests ≤ chanLimit)
    (hC : 1 ≤ c.concurrencyLevel) (hwl : c.concurrencyLevel ≤ workerLimit)
    (hurl : isTLS c.baseURL = some tls)
    (hw : ∀ i, i < c.requests.toNat → runLoadTest.normal (world i) = true) :
    ∃ d, dispatch chanLimit workerLimit isTLS readFile c = .ok d ∧
      d.queue = List.replicate c.requests.toNat (QueueOp.send "a") ++ [QueueOp.close] ∧
      (∃ acts s, exec (configured c d) world (start d) acts = some s ∧
        stuck (configured c d) world s = true) ∧
      ∀ (acts : List Action) (s : Run),
        exec (configured c d) world (start d) acts = some s →
          s.died = none ∧
          s.queue ++ s.todo
            = List.replicate c.requests.toNat (QueueOp.send "a") ++ [QueueOp.close] ∧
          acts.length ≤ 3 * (c.requests.toNat + 1) + c.concurrencyLevel.toNat ∧
          (stuck (configured c d) world s = true →
            s.queue = List.replicate c.requests.toNat (QueueOp.send "a") ++ [QueueOp.close] ∧
            s.todo = [] ∧ s.closed = true ∧
            s.finished = c.concurrencyLevel.toNat ∧
            s.channel.length = c.requests.toNat) := by
  refine ⟨_, dispatch_countMode chanLimit workerLimit isTLS readFile c tls hmode hR hlim
    (by omega) hwl hurl, rfl, ?_, ?_⟩
  · obtain ⟨s2, he, hst⟩ := schedule_rests
      (configured c
        { isTLS := tls, requests := c.requests, resultsCap := c.requests,
          workers := c.concurrencyLevel,
          queue := List.replicate c.requests.toNat (QueueOp.send "a") ++ [QueueOp.close] })
      world _ _ (Nat.le_refl _)
    exact ⟨_, s2, he, hst⟩
  · intro acts s hexec
    have hinv0 := countInv_start
      { isTLS := tls, requests := c.requests, resultsCap := c.requests,
        workers := c.concurrencyLevel,
        queue := List.replicate c.requests.toNat (QueueOp.send "a") ++ [QueueOp.close] } rfl
    have hinv := countInv_exec _ world _ _ acts _ s hw hinv0 hexec
    have hbud := exec_budget _ world acts _ s hexec
    refine ⟨hinv.1, countInv_program _ _ s hinv, ?_, ?_⟩
    · have h0 : budget (start
          { isTLS := tls, requests := c.requests, resultsCap := c.requests,
            workers := c.concurrencyLevel,
            queue := List.replicate c.requests.toNat (QueueOp.send "a") ++ [QueueOp.close] })
          = 3 * (c.requests.toNat + 1) + c.concurrencyLevel.toNat := by
        simp [budget, start]
      omega
    · intro hstuck
      have hC1 : 1 ≤ c.concurrencyLevel.toNat := by omega
      obtain ⟨h1, h2, h3, h4, h5⟩ := countInv_stuck _ world _ _ s hw hC1 hinv hstuck
      exact ⟨h2, h1, h3, h4, h5⟩

/-- Witness for C2 (amended): two requests, one worker, no failing request. -/
theorem countMode_run_pushes_all_witness :
    Sample.http.fileMode = false ∧ 0 ≤ Sample.http.requests ∧
    Sample.http.requests ≤ Sample.chanLimit ∧ 1 ≤ Sample.http.concurrencyLevel ∧
    Sample.http.concurrencyLevel ≤ Sample.workerLimit ∧
    ∃ d, dispatch Sample.chanLimit Sample.workerLimit Sample.plainScheme Sample.oneSuffix
        Sample.http = .ok d ∧
      d.queue = [QueueOp.send "a", QueueOp.send "a", QueueOp.close] :=
  ⟨by decide, by decide, by decide, by decide, by decide,
   (countMode_run_pushes_all Sample.chanLimit Sample.workerLimit Sample.plainScheme
      Sample.oneSuffix Sample.http false Sample.steady (by decide) (by decide) (by decide)
      (by decide) (by decide) (by decide)
      (fun i _ => by unfold Sample.steady; split <;> decide)).elim
     (fun d hd => ⟨d, hd.1, hd.2.1⟩)⟩

end Dispatcher

end Cassowary
